import Mathlib

/-!
Shallow embedding of the OrangePi ⇄ STM32 PWM/heartbeat link of this
repository.

Byte streams are `List ℕ` whose entries are byte values (< 256); machine
integers are modelled as `ℕ` with explicit `% 2^w` where C truncation
matters.  `float` duty-cycle percentages are modelled as `ℚ`.

Embedded sources:
* `receive_pwm_stm32/Source/Src/crc16_ccitt.c`  (CRC16-CCITT-FALSE)
* host packer `protocol_pack.c` (`protocol_pack_pwm`, `protocol_pack_heartbeat`)
* `receive_pwm_stm32/Source/Src/protocol_v1.c`  (feed / parse / poll / handlers)
* `orangepi_send/src/libpwm_host.c`  (`pwm_host_percent_to_u16`,
  `pwm_host_set_all_pct`)
* shaper `pwm_control.c` (`pwm_ctrl_step`, target setters, groups)
-/

namespace OrangePiRov

/-! ### CRC16-CCITT-FALSE (crc16_ccitt.c / protocol_pack.c, identical algorithm) -/

/-- One shift-and-conditionally-xor round of the CRC inner loop:
`crc = (crc & 0x8000) ? (crc << 1) ^ 0x1021 : (crc << 1)` stored into a
`uint16_t`, hence the `% 65536`. -/
def crc16_shift (crc : ℕ) : ℕ :=
  if crc &&& 0x8000 ≠ 0 then ((crc <<< 1) ^^^ 0x1021) % 65536 else (crc <<< 1) % 65536

/-- Process one input byte: `crc ^= byte << 8` followed by eight shift rounds. -/
def crc16_byte (crc b : ℕ) : ℕ :=
  crc16_shift^[8] (crc ^^^ (b <<< 8))

/-- `crc16_update` of crc16_ccitt.c over a byte list. -/
def crc16_update (crc : ℕ) (data : List ℕ) : ℕ :=
  data.foldl crc16_byte crc

/-- `crc16_ccitt`: CRC16-CCITT-FALSE with initial value 0xFFFF. -/
def crc16_ccitt (data : List ℕ) : ℕ :=
  crc16_update 0xFFFF data

/-! ### Big-endian byte packing/unpacking -/

/-- `be16_write`: `p[0]=(uint8_t)(v>>8); p[1]=(uint8_t)(v&0xFF)`. -/
def be16_bytes (v : ℕ) : List ℕ :=
  [(v >>> 8) % 256, v &&& 0xFF]

/-- `be32_write`: the four big-endian bytes of a 32-bit value. -/
def be32_bytes (v : ℕ) : List ℕ :=
  [(v >>> 24) % 256, (v >>> 16) % 256, (v >>> 8) % 256, v &&& 0xFF]

/-- `be16_read`: `(p[0] << 8) | p[1]`. -/
def be16_read (a b : ℕ) : ℕ :=
  (a <<< 8) ||| b

/-- `be32_read`: `(p0<<24)|(p1<<16)|(p2<<8)|p3`. -/
def be32_read (a b c d : ℕ) : ℕ :=
  (a <<< 24) ||| (b <<< 16) ||| (c <<< 8) ||| d

/-! ### Protocol constants (protocol_v1.h / config.h) -/

def SOF_B0 : ℕ := 0xAA
def SOF_B1 : ℕ := 0x55
def PROTO_VER_1 : ℕ := 0x01
def MSG_PWM : ℕ := 0x01
def MSG_HB : ℕ := 0x10
def MSG_HB_ACK : ℕ := 0x11
def MIN_FRAME_LEN : ℕ := 14
def CFG_PROTO_RX_BUF_CAP : ℕ := 512
def CFG_FAILSAFE_TIMEOUT_MS : ℕ := 300

/-! ### Host-side frame packer (protocol_pack.c)

The running sequence number `s_seq` and `host_ticks_ms()` are passed as
explicit arguments. -/

/-- Payload clamp of `protocol_pack_pwm`: `if (v > 10000u) v = 10000u`. -/
def clamp_u16_10000 (v : ℕ) : ℕ :=
  if v > 10000 then 10000 else v

/-- `protocol_pack_pwm`: SOF, VER, MSG_PWM, SEQ, TICKS, LEN=16, 8×u16 payload
(big-endian, clamped to 10000), CRC over VER..PAYLOAD. -/
def protocol_pack_pwm (pwm8 : Fin 8 → ℕ) (seq ticks : ℕ) : List ℕ :=
  let body :=
    [PROTO_VER_1, MSG_PWM] ++ be16_bytes seq ++ be32_bytes ticks ++ be16_bytes 16 ++
      (be16_bytes (clamp_u16_10000 (pwm8 0)) ++ be16_bytes (clamp_u16_10000 (pwm8 1)) ++
       be16_bytes (clamp_u16_10000 (pwm8 2)) ++ be16_bytes (clamp_u16_10000 (pwm8 3)) ++
       be16_bytes (clamp_u16_10000 (pwm8 4)) ++ be16_bytes (clamp_u16_10000 (pwm8 5)) ++
       be16_bytes (clamp_u16_10000 (pwm8 6)) ++ be16_bytes (clamp_u16_10000 (pwm8 7)))
  [SOF_B0, SOF_B1] ++ body ++ be16_bytes (crc16_ccitt body)

/-- `protocol_pack_heartbeat`: SOF, VER, MSG_HB, SEQ, TICKS, LEN=0, CRC. -/
def protocol_pack_heartbeat (seq ticks : ℕ) : List ℕ :=
  let body := [PROTO_VER_1, MSG_HB] ++ be16_bytes seq ++ be32_bytes ticks ++ be16_bytes 0
  [SOF_B0, SOF_B1] ++ body ++ be16_bytes (crc16_ccitt body)

/-! ### Device-side engine state (protocol_v1.c globals) -/

/-- The mutable globals of protocol_v1.c: receive buffer `s_rxbuf[0..s_rxlen)`,
statistics `s_stats`, liveness timestamp `s_last_ok_rx_ms`, the failsafe
timeout and the `protocol_flag` handshake flag. -/
structure ProtoState where
  rxbuf : List ℕ
  rx_ok : ℕ
  rx_crc_err : ℕ
  rx_len_err : ℕ
  rx_unsupported : ℕ
  lastOkRxMs : ℕ
  failsafeTimeoutMs : ℕ
  flag : ℕ
deriving Repr, DecidableEq

/-- `protocol_init` (buffer and stats cleared, liveness stamped `now`),
followed by `protocol_process_init`'s `protocol_flag = 0`. -/
def protocol_init (now : ℕ) : ProtoState :=
  ⟨[], 0, 0, 0, 0, now, CFG_FAILSAFE_TIMEOUT_MS, 0⟩

/-- Observable dispatches of the frame pipeline: a PWM command handed to the
eight `Driver_pwm_SetDuty` outputs, or a heartbeat-ACK frame transmitted on
the UART. -/
inductive ProtoEvent where
  | pwmOut (vals : Fin 8 → ℕ) (duty : Fin 8 → ℚ)
  | hbAckTx (bytes : List ℕ)

/-- The PWM values dispatched by an optional event (0-vector when none). -/
def pwmValsOf : Option ProtoEvent → Option (Fin 8 → ℕ)
  | some (.pwmOut vals _) => some vals
  | _ => none

/-- The heartbeat-ACK bytes transmitted by an optional event. -/
def hbAckOf : Option ProtoEvent → Option (List ℕ)
  | some (.hbAckTx bytes) => some bytes
  | _ => none

/-! ### Message handlers (protocol_v1.c) -/

/-- `handle_msg_pwm`: reject `len ≠ 16` (the caller then counts a length
error), otherwise read 8 big-endian u16 words, clamp to 0..10000 and map
linearly to a duty in −1..1 (`5000 → 0`), clamping the float to ±1. -/
def handle_msg_pwm (payload : List ℕ) (len : ℕ) :
    Option ((Fin 8 → ℕ) × (Fin 8 → ℚ)) :=
  if len ≠ 16 then none
  else
    let vals : Fin 8 → ℕ := fun i =>
      min (be16_read (payload.getD (2 * i.val) 0) (payload.getD (2 * i.val + 1) 0)) 10000
    let duty : Fin 8 → ℚ := fun i =>
      let d : ℚ := ((vals i : ℚ) - 5000) / 5000
      let d1 := if d > 1 then 1 else d
      if d1 < -1 then -1 else d1
    some (vals, duty)

/-- `handle_msg_hb` with `CFG_HB_ACK_ENABLE = 1`: build the ACK frame.  The
SEQ field echoes the heartbeat's `seq`; the TICKS field is written from the
device's own `HAL_GetTick()` (`now`), not from the received `ticks`, which
the function ignores. -/
def handle_msg_hb (seq ticks now : ℕ) : List ℕ :=
  let body := [PROTO_VER_1, MSG_HB_ACK] ++ be16_bytes seq ++ be32_bytes now ++ be16_bytes 0
  [SOF_B0, SOF_B1] ++ body ++ be16_bytes (crc16_ccitt body)

/-! ### Frame parsing (try_parse_one_frame) -/

/-- Index at which the linear SOF scan of `try_parse_one_frame` stops: the
first position whose byte pair is `0xAA 0x55`, or the last position reachable
by the `pos + 1 < s_rxlen` loop bound. -/
def sof_scan : List ℕ → ℕ
  | a :: b :: rest => if a = SOF_B0 ∧ b = SOF_B1 then 0 else sof_scan (b :: rest) + 1
  | _ => 0

/-- Result of one `try_parse_one_frame` call: the C return value `again`,
the number of bytes the caller must discard, the updated globals (buffer
untouched — the caller shifts it), the dispatched side effect, and
`valid = some msg` exactly when a fully checksummed frame was consumed. -/
structure ParseStep where
  again : Bool
  consumed : ℕ
  st : ProtoState
  ev : Option ProtoEvent
  valid : Option ℕ

/-- The `switch (msg)` dispatch at the end of `try_parse_one_frame`, reached
only for a fully validated frame: PWM and HB refresh `s_last_ok_rx_ms` and
count `rx_ok`; HB additionally transmits an ACK; HB_ACK and unknown ids are
counted as unsupported.  The whole frame (`frame_len` bytes) is consumed. -/
def dispatch_msg (now : ℕ) (st : ProtoState) (msg seq ticks : ℕ)
    (payload : List ℕ) (len frame_len : ℕ) : ParseStep :=
  if msg = MSG_PWM then
    match handle_msg_pwm payload len with
    | none =>
      ⟨true, frame_len,
        { st with lastOkRxMs := now, rx_len_err := st.rx_len_err + 1,
                  rx_ok := st.rx_ok + 1 }, none, some msg⟩
    | some (vals, duty) =>
      ⟨true, frame_len,
        { st with lastOkRxMs := now, rx_ok := st.rx_ok + 1 },
        some (.pwmOut vals duty), some msg⟩
  else if msg = MSG_HB then
    ⟨true, frame_len,
      { st with lastOkRxMs := now, rx_ok := st.rx_ok + 1 },
      some (.hbAckTx (handle_msg_hb seq ticks now)), some msg⟩
  else if msg = MSG_HB_ACK then
    ⟨true, frame_len, { st with rx_unsupported := st.rx_unsupported + 1 }, none, some msg⟩
  else
    ⟨true, frame_len, { st with rx_unsupported := st.rx_unsupported + 1 }, none, some msg⟩

/-- `try_parse_one_frame` of protocol_v1.c.  `now` is `HAL_GetTick()`. -/
def try_parse_one_frame (now : ℕ) (st : ProtoState) : ParseStep :=
  let buf := st.rxbuf
  if buf.length < 1 then ⟨false, 0, st, none, none⟩
  else
    let pos := sof_scan buf
    if pos > 0 then ⟨true, pos, st, none, none⟩
    else if buf.length < MIN_FRAME_LEN then ⟨false, 0, st, none, none⟩
    else
      let ver := buf.getD 2 0
      let msg := buf.getD 3 0
      let seq := be16_read (buf.getD 4 0) (buf.getD 5 0)
      let ticks := be32_read (buf.getD 6 0) (buf.getD 7 0) (buf.getD 8 0) (buf.getD 9 0)
      let len := be16_read (buf.getD 10 0) (buf.getD 11 0)
      if ver ≠ PROTO_VER_1 then
        ⟨true, 1, { st with rx_unsupported := st.rx_unsupported + 1 }, none, none⟩
      else
        let frame_len := 12 + len + 2
        if frame_len > CFG_PROTO_RX_BUF_CAP then
          ⟨true, 1, { st with rx_len_err := st.rx_len_err + 1 }, none, none⟩
        else if buf.length < frame_len then ⟨false, 0, st, none, none⟩
        else
          let crc_calc := crc16_ccitt ((buf.drop 2).take (10 + len))
          let crc_rx := be16_read (buf.getD (12 + len) 0) (buf.getD (13 + len) 0)
          if crc_calc ≠ crc_rx then
            ⟨true, 1, { st with rx_crc_err := st.rx_crc_err + 1 }, none, none⟩
          else
            dispatch_msg now st msg seq ticks ((buf.drop 12).take len) len frame_len

/-! ### Buffer draining (process_rx_buffer / protocol_process) -/

/-- The `for(;;)` drain loop of `process_rx_buffer`, fuelled.  Returns the
accumulated dispatches, the final state, and whether the loop exited on its
own (`try_parse_one_frame` returned `false`) before the fuel ran out. -/
def process_rx_buffer_aux (now : ℕ) : ℕ → ProtoState → List ProtoEvent →
    List ProtoEvent × ProtoState × Bool
  | 0, st, acc => (acc, st, false)
  | fuel + 1, st, acc =>
    let r := try_parse_one_frame now st
    if r.again then
      process_rx_buffer_aux now fuel
        { r.st with rxbuf := r.st.rxbuf.drop r.consumed } (acc ++ r.ev.toList)
    else (acc, st, true)

/-- `process_rx_buffer`: drain as many frames as possible.  Each iteration
that continues consumes at least one byte, so `length + 1` fuel always
suffices (proved below). -/
def process_rx_buffer (now : ℕ) (st : ProtoState) :
    List ProtoEvent × ProtoState × Bool :=
  process_rx_buffer_aux now (st.rxbuf.length + 1) st []

/-- `protocol_process`: main-loop hook — drain only when `protocol_flag = 1`,
then clear the flag. -/
def protocol_process (now : ℕ) (st : ProtoState) : List ProtoEvent × ProtoState :=
  if st.flag = 1 then
    let r := process_rx_buffer now st
    (r.1, { r.2.1 with flag := 0 })
  else ([], st)

/-! ### Byte ingestion (protocol_feed_bytes) -/

/-- `protocol_feed_bytes`: gated on `protocol_flag == 0`; oversized input is
truncated to its newest `CFG_PROTO_RX_BUF_CAP` bytes with the buffer cleared;
an overflowing append slides the window by dropping the oldest bytes; finally
the flag is raised. -/
def protocol_feed_bytes (st : ProtoState) (data : List ℕ) : ProtoState :=
  if st.flag = 0 then
    if data.length = 0 then st
    else
      let p :=
        if data.length > CFG_PROTO_RX_BUF_CAP then
          (data.drop (data.length - CFG_PROTO_RX_BUF_CAP), ([] : List ℕ))
        else (data, st.rxbuf)
      let rx :=
        if p.2.length + p.1.length > CFG_PROTO_RX_BUF_CAP then
          p.2.drop (p.2.length + p.1.length - CFG_PROTO_RX_BUF_CAP)
        else p.2
      { st with rxbuf := rx ++ p.1, flag := 1 }
  else st

/-! ### Link supervision (protocol_poll) -/

/-- `uint32_t` subtraction `a - b` with wraparound. -/
def u32_sub (a b : ℕ) : ℕ :=
  (a % 2 ^ 32 + 2 ^ 32 - b % 2 ^ 32) % 2 ^ 32

/-- `enter_failsafe_mid_all`: all eight channels driven to neutral duty 0. -/
def enter_failsafe_mid_all : Fin 8 → ℚ := fun _ => 0

/-- `protocol_poll`: when more than the failsafe timeout has elapsed since
the last valid frame, emit the neutral vector and refresh
`s_last_ok_rx_ms = now`. -/
def protocol_poll (now : ℕ) (st : ProtoState) : ProtoState × Option (Fin 8 → ℚ) :=
  if u32_sub now st.lastOkRxMs > st.failsafeTimeoutMs then
    ({ st with lastOkRxMs := now }, some enter_failsafe_mid_all)
  else (st, none)

/-- `protocol_set_failsafe_timeout_ms` with its 50 ms safety floor. -/
def protocol_set_failsafe_timeout_ms (ms : ℕ) (st : ProtoState) : ProtoState :=
  { st with failsafeTimeoutMs := if ms < 50 then 50 else ms }

/-! ### Host-side value mapping (libpwm_host.c) -/

def PWM_HOST_PCT_MIN : ℚ := 5
def PWM_HOST_PCT_MID : ℚ := 15 / 2
def PWM_HOST_PCT_MAX : ℚ := 10
def PWM_HOST_VAL_MIN : ℕ := 0
def PWM_HOST_VAL_MID : ℕ := 5000
def PWM_HOST_VAL_MAX : ℕ := 10000

/-- `pwm_host_percent_to_u16`: clamp the percentage to 5..10, normalise to
0..1 and scale to 0..10000 with `(int)(x + 0.5f)` rounding.  The C cast
truncates toward zero; the operand is nonnegative here, so it is `⌊·⌋`. -/
def pwm_host_percent_to_u16 (pct : ℚ) : ℕ :=
  let p1 := if pct < PWM_HOST_PCT_MIN then PWM_HOST_PCT_MIN else pct
  let p2 := if p1 > PWM_HOST_PCT_MAX then PWM_HOST_PCT_MAX else p1
  let norm := (p2 - PWM_HOST_PCT_MIN) / (PWM_HOST_PCT_MAX - PWM_HOST_PCT_MIN)
  let v : ℤ := ⌊norm * (PWM_HOST_VAL_MAX : ℚ) + 1 / 2⌋
  let v1 := if v < (PWM_HOST_VAL_MIN : ℤ) then (PWM_HOST_VAL_MIN : ℤ) else v
  (if v1 > (PWM_HOST_VAL_MAX : ℤ) then (PWM_HOST_VAL_MAX : ℤ) else v1).toNat

/-- `pwm_host_set_all_u16`: clamp each channel word to 10000; the result is
the payload vector sent on the wire (and stored into the shadow values). -/
def pwm_host_set_all_u16 (v : Fin 8 → ℕ) : Fin 8 → ℕ := fun i =>
  if v i > PWM_HOST_VAL_MAX then PWM_HOST_VAL_MAX else v i

/-- `pwm_host_set_all_pct`: negative percentages are replaced by the 7.5 %
midpoint before conversion; returns the u16 vector actually sent. -/
def pwm_host_set_all_pct (pct : Fin 8 → ℚ) : Fin 8 → ℕ :=
  pwm_host_set_all_u16 fun i =>
    pwm_host_percent_to_u16 (if pct i < 0 then PWM_HOST_PCT_MID else pct i)

/-! ### Command shaper (pwm_control.c)

The globals `s_cfg`, `s_current_pct`, `s_target_pct`, `s_step_count`,
`s_group_toggle` and `s_inited` become an explicit configuration record and
state record; the downstream `pwm_host_set_all_pct` transport outcome is a
Boolean-valued collaborator passed to `pwm_ctrl_step`. -/

def PWM_CH_MASK_ALL : ℕ := 0xFF
def PWM_CH_MASK_1_4 : ℕ := 0x0F
def PWM_CH_MASK_5_8 : ℕ := 0xF0
def PWM_CTRL_GROUP_MODE_ALL : ℕ := 0
def PWM_CTRL_GROUP_MODE_AB_ALTERNATE : ℕ := 1
def PWM_CTRL_OK : ℤ := 0
def PWM_CTRL_ERR_NOT_INIT : ℤ := -1
def PWM_CTRL_ERR_INVALID_ARG : ℤ := -2
def PWM_CTRL_ERR_INTERNAL : ℤ := -3

/-- The epsilon of the reverse-protection comparisons (`1e-6f`). -/
def reverse_eps : ℚ := 1 / 1000000

/-- `pwm_ctrl_config_t`. -/
structure PwmCtrlConfig where
  ctrl_hz : ℚ
  max_step_pct : ℚ
  min_pct : ℚ
  mid_pct : ℚ
  max_pct : ℚ
  enable_reverse_protection : Bool
  groupA_mask : ℕ
  groupB_mask : ℕ
  group_mode : ℕ

/-- The shaper's mutable globals. -/
structure PwmCtrlState where
  inited : Bool
  current_pct : Fin 8 → ℚ
  target_pct : Fin 8 → ℚ
  step_count : ℕ
  group_toggle : ℕ

/-- `max_step_pct_effective`: a non-positive configured step means
"unlimited", represented by 100. -/
def max_step_pct_effective (cfg : PwmCtrlConfig) : ℚ :=
  if cfg.max_step_pct ≤ 0 then 100 else cfg.max_step_pct

/-- `ch_in_mask` for 1-based channel numbers. -/
def ch_in_mask (ch : ℕ) (mask : ℕ) : Bool :=
  if ch < 1 ∨ ch > 8 then false else (mask &&& (1 <<< (ch - 1))) != 0

/-- `active_mask_for_this_step`: the mask used this tick together with the
updated `s_group_toggle` (the C function flips the toggle as a side effect).
Mode `ALL` keeps the toggle; any other mode (the `default:` case) alternates
between group A (`toggle = 0`) and group B. -/
def active_mask_for_this_step (cfg : PwmCtrlConfig) (toggle : ℕ) : ℕ × ℕ :=
  if cfg.group_mode = PWM_CTRL_GROUP_MODE_ALL then (PWM_CH_MASK_ALL, toggle)
  else if toggle = 0 then (cfg.groupA_mask, 1)
  else (cfg.groupB_mask, 0)

/-- The lower clamp bound of `clamp_pct`: `min_pct`, falling back to 5 when
non-positive. -/
def min_pct_effective (cfg : PwmCtrlConfig) : ℚ :=
  if cfg.min_pct > 0 then cfg.min_pct else PWM_HOST_PCT_MIN

/-- The upper clamp bound of `clamp_pct`: `max_pct`, falling back to 10 when
non-positive. -/
def max_pct_effective (cfg : PwmCtrlConfig) : ℚ :=
  if cfg.max_pct > 0 then cfg.max_pct else PWM_HOST_PCT_MAX

/-- `clamp_pct`: sequential clamping to the configured range, with the 5/10
defaults when a bound is non-positive. -/
def clamp_pct (cfg : PwmCtrlConfig) (pct : ℚ) : ℚ :=
  let minp := min_pct_effective cfg
  let maxp := max_pct_effective cfg
  let p1 := if pct < minp then minp else pct
  if p1 > maxp then maxp else p1

/-- The per-tick output vector computed inside `pwm_ctrl_step`'s channel
loop: reverse protection substitutes `mid` as the effective target when
current and target sit strictly on opposite sides of `mid` (beyond `1e-6`);
channels outside the active mask keep their current value; the delta is
slew-limited to `±max_step` and the result clamped to the configured range. -/
def pwm_ctrl_next (cfg : PwmCtrlConfig) (st : PwmCtrlState) : Fin 8 → ℚ :=
  let mask := (active_mask_for_this_step cfg st.group_toggle).1
  let max_step := max_step_pct_effective cfg
  let mid := cfg.mid_pct
  fun i =>
    let cur := st.current_pct i
    let tgt := st.target_pct i
    let eff_target :=
      if cfg.enable_reverse_protection ∧
          ((cur > mid + reverse_eps ∧ tgt < mid - reverse_eps) ∨
           (cur < mid - reverse_eps ∧ tgt > mid + reverse_eps)) then mid
      else tgt
    let delta := eff_target - cur
    if ¬ ch_in_mask (i.val + 1) mask then cur
    else
      let delta2 := if |delta| > max_step then (if delta > 0 then max_step else -max_step)
                    else delta
      clamp_pct cfg (cur + delta2)

/-- `pwm_ctrl_step`: compute this tick's mask (flipping the toggle), build the
output vector, emit it downstream; only on success are `s_current_pct` and
`s_step_count` updated.  `emit` models the `pwm_host_set_all_pct` outcome. -/
def pwm_ctrl_step (cfg : PwmCtrlConfig) (emit : (Fin 8 → ℚ) → Bool)
    (st : PwmCtrlState) : ℤ × PwmCtrlState :=
  if !st.inited then (PWM_CTRL_ERR_NOT_INIT, st)
  else
    let tog := (active_mask_for_this_step cfg st.group_toggle).2
    let next := pwm_ctrl_next cfg st
    if emit next then
      (PWM_CTRL_OK,
        { st with current_pct := next, step_count := st.step_count + 1,
                  group_toggle := tog })
    else (PWM_CTRL_ERR_INTERNAL, { st with group_toggle := tog })

/-- `n` successive successful-emission `pwm_ctrl_step` calls. -/
def pwm_ctrl_steps (cfg : PwmCtrlConfig) (emit : (Fin 8 → ℚ) → Bool) (n : ℕ)
    (st : PwmCtrlState) : PwmCtrlState :=
  (fun s => (pwm_ctrl_step cfg emit s).2)^[n] st

/-- `pwm_ctrl_set_target_pct`: store a clamped target for one channel;
negative requests are replaced by the configured midpoint. -/
def pwm_ctrl_set_target_pct (cfg : PwmCtrlConfig) (st : PwmCtrlState)
    (ch : ℕ) (pct : ℚ) : ℤ × PwmCtrlState :=
  if !st.inited then (PWM_CTRL_ERR_NOT_INIT, st)
  else if ch < 1 ∨ ch > 8 then (PWM_CTRL_ERR_INVALID_ARG, st)
  else
    let p := if pct < 0 then cfg.mid_pct else pct
    (PWM_CTRL_OK,
      { st with target_pct := fun i => if i.val = ch - 1 then clamp_pct cfg p
                                       else st.target_pct i })

/-- `pwm_ctrl_set_targets_mask`: masked multi-channel variant of the target
setter, with the same negative-to-midpoint substitution. -/
def pwm_ctrl_set_targets_mask (cfg : PwmCtrlConfig) (st : PwmCtrlState)
    (mask : ℕ) (pct : Fin 8 → ℚ) : ℤ × PwmCtrlState :=
  if !st.inited then (PWM_CTRL_ERR_NOT_INIT, st)
  else
    (PWM_CTRL_OK,
      { st with target_pct := fun i =>
          if ch_in_mask (i.val + 1) mask then
            clamp_pct cfg (if pct i < 0 then cfg.mid_pct else pct i)
          else st.target_pct i })

/-! ### Derived predicates used by the buffer/noise theorems -/

/-- All the acceptance checks of `try_parse_one_frame` at the head of a
buffer: SOF pair, minimum length, version, plausible frame length, complete
frame available, and matching CRC.  A dispatch can only happen when this
holds. -/
def valid_frame_head (buf : List ℕ) : Bool :=
  decide (2 ≤ buf.length) && (buf.getD 0 0 == SOF_B0) && (buf.getD 1 0 == SOF_B1) &&
  decide (MIN_FRAME_LEN ≤ buf.length) && (buf.getD 2 0 == PROTO_VER_1) &&
  decide (12 + be16_read (buf.getD 10 0) (buf.getD 11 0) + 2 ≤ CFG_PROTO_RX_BUF_CAP) &&
  decide (12 + be16_read (buf.getD 10 0) (buf.getD 11 0) + 2 ≤ buf.length) &&
  (crc16_ccitt ((buf.drop 2).take (10 + be16_read (buf.getD 10 0) (buf.getD 11 0))) ==
    be16_read (buf.getD (12 + be16_read (buf.getD 10 0) (buf.getD 11 0)) 0)
      (buf.getD (13 + be16_read (buf.getD 10 0) (buf.getD 11 0)) 0))

/-- A byte sequence is pure noise when no suffix of it starts with a frame
that would pass all acceptance checks. -/
def no_valid_frame (l : List ℕ) : Prop :=
  ∀ i, valid_frame_head (l.drop i) = false

end OrangePiRov

namespace OrangePiRov

/-! ## Helper lemmas -/

theorem crc16_shift_lt (c : ℕ) : crc16_shift c < 65536 := by
  unfold crc16_shift
  split <;> exact Nat.mod_lt _ (by norm_num)

theorem crc16_byte_lt (c b : ℕ) : crc16_byte c b < 65536 := by
  unfold crc16_byte
  rw [show (8 : ℕ) = 7 + 1 from rfl, Function.iterate_succ_apply']
  exact crc16_shift_lt _

theorem crc16_update_lt (l : List ℕ) : ∀ c : ℕ, c < 65536 → crc16_update c l < 65536 := by
  induction l with
  | nil => exact fun c hc => hc
  | cons a t ih =>
    intro c _
    simpa [crc16_update, List.foldl_cons] using ih (crc16_byte c a) (crc16_byte_lt c a)

theorem crc16_ccitt_lt (l : List ℕ) : crc16_ccitt l < 65536 :=
  crc16_update_lt l 0xFFFF (by norm_num)

theorem be16_read_split (v : ℕ) (h : v < 65536) :
    be16_read ((v >>> 8) % 256) (v &&& 0xFF) = v := by
  have h1 : v >>> 8 = v / 256 := by
    rw [Nat.shiftRight_eq_div_pow]
  have h2 : v / 256 < 256 := by omega
  have h3 : v &&& 0xFF = v % 256 := by
    rw [show (0xFF : ℕ) = 2 ^ 8 - 1 from rfl, Nat.and_pow_two_sub_one_eq_mod]
  rw [be16_read, h1, h3, Nat.mod_eq_of_lt h2, Nat.shiftLeft_eq, mul_comm,
    ← Nat.mul_add_lt_is_or (by omega : v % 256 < 2 ^ 8)]
  omega

theorem abs_clamp_pct_sub_le (cfg : PwmCtrlConfig) (cur x : ℚ)
    (hlo : min_pct_effective cfg ≤ cur) (hhi : cur ≤ max_pct_effective cfg) :
    |clamp_pct cfg x - cur| ≤ |x - cur| := by
  have h1 := le_abs_self (x - cur)
  have h2 := neg_abs_le (x - cur)
  have h0 := abs_nonneg (x - cur)
  simp only [clamp_pct]
  split_ifs <;>
    first
      | exact le_rfl
      | (rw [abs_le]; constructor <;> linarith)

theorem slew_clamp_bound (cfg : PwmCtrlConfig) (cur e : ℚ) (hms : 0 < cfg.max_step_pct)
    (hlo : min_pct_effective cfg ≤ cur) (hhi : cur ≤ max_pct_effective cfg) :
    |clamp_pct cfg (cur +
        (if |e - cur| > cfg.max_step_pct then
           (if e - cur > 0 then cfg.max_step_pct else -cfg.max_step_pct)
         else e - cur)) - cur|
      ≤ cfg.max_step_pct := by
  have habs : |(if |e - cur| > cfg.max_step_pct then
      (if e - cur > 0 then cfg.max_step_pct else -cfg.max_step_pct)
      else e - cur)| ≤ cfg.max_step_pct := by
    split_ifs with hd1 hd2
    · rw [abs_of_pos hms]
    · rw [abs_neg, abs_of_pos hms]
    · exact le_of_not_lt hd1
  calc |clamp_pct cfg (cur +
          (if |e - cur| > cfg.max_step_pct then
             (if e - cur > 0 then cfg.max_step_pct else -cfg.max_step_pct)
           else e - cur)) - cur|
      ≤ |cur + (if |e - cur| > cfg.max_step_pct then
             (if e - cur > 0 then cfg.max_step_pct else -cfg.max_step_pct)
           else e - cur) - cur| := abs_clamp_pct_sub_le cfg cur _ hlo hhi
    _ = |(if |e - cur| > cfg.max_step_pct then
             (if e - cur > 0 then cfg.max_step_pct else -cfg.max_step_pct)
           else e - cur)| := by rw [add_sub_cancel_left]
    _ ≤ cfg.max_step_pct := habs

theorem pwm_ctrl_next_inactive (cfg : PwmCtrlConfig) (st : PwmCtrlState) (i : Fin 8)
    (h : ch_in_mask (i.val + 1) (active_mask_for_this_step cfg st.group_toggle).1 = false) :
    pwm_ctrl_next cfg st i = st.current_pct i := by
  unfold pwm_ctrl_next
  simp [h]

theorem pwm_ctrl_next_abs_le (cfg : PwmCtrlConfig) (st : PwmCtrlState) (i : Fin 8)
    (hms : 0 < cfg.max_step_pct)
    (hlo : min_pct_effective cfg ≤ st.current_pct i)
    (hhi : st.current_pct i ≤ max_pct_effective cfg) :
    |pwm_ctrl_next cfg st i - st.current_pct i| ≤ cfg.max_step_pct := by
  have hmax : max_step_pct_effective cfg = cfg.max_step_pct := by
    unfold max_step_pct_effective
    rw [if_neg (not_le.mpr hms)]
  by_cases hmask : ch_in_mask (i.val + 1) (active_mask_for_this_step cfg st.group_toggle).1
  · unfold pwm_ctrl_next
    dsimp only
    rw [hmax, if_neg (not_not_intro hmask)]
    exact slew_clamp_bound cfg _ _ hms hlo hhi
  · rw [pwm_ctrl_next_inactive cfg st i (by simpa using hmask)]
    simp [hms.le]

theorem dispatch_msg_valid (now : ℕ) (st : ProtoState) (msg seq ticks : ℕ)
    (payload : List ℕ) (len flen : ℕ) :
    (dispatch_msg now st msg seq ticks payload len flen).valid = some msg := by
  unfold dispatch_msg
  split_ifs <;> first | rfl | (split <;> rfl)

theorem dispatch_msg_again (now : ℕ) (st : ProtoState) (msg seq ticks : ℕ)
    (payload : List ℕ) (len flen : ℕ) :
    (dispatch_msg now st msg seq ticks payload len flen).again = true := by
  unfold dispatch_msg
  split_ifs <;> first | rfl | (split <;> rfl)

theorem dispatch_msg_consumed (now : ℕ) (st : ProtoState) (msg seq ticks : ℕ)
    (payload : List ℕ) (len flen : ℕ) :
    (dispatch_msg now st msg seq ticks payload len flen).consumed = flen := by
  unfold dispatch_msg
  split_ifs <;> first | rfl | (split <;> rfl)

theorem dispatch_msg_rxbuf (now : ℕ) (st : ProtoState) (msg seq ticks : ℕ)
    (payload : List ℕ) (len flen : ℕ) :
    (dispatch_msg now st msg seq ticks payload len flen).st.rxbuf = st.rxbuf := by
  unfold dispatch_msg
  split_ifs <;> first | rfl | (split <;> rfl)

theorem dispatch_msg_lastOk (now : ℕ) (st : ProtoState) (msg seq ticks : ℕ)
    (payload : List ℕ) (len flen : ℕ) :
    (dispatch_msg now st msg seq ticks payload len flen).st.lastOkRxMs =
      if msg = MSG_PWM ∨ msg = MSG_HB then now else st.lastOkRxMs := by
  unfold dispatch_msg
  split_ifs <;>
    first
      | (split <;> simp_all [MSG_PWM, MSG_HB, MSG_HB_ACK])
      | simp_all [MSG_PWM, MSG_HB, MSG_HB_ACK]

theorem clamp_pct_mid (cfg : PwmCtrlConfig) (h1 : 0 < cfg.min_pct)
    (h2 : cfg.min_pct < cfg.mid_pct) (h3 : cfg.mid_pct < cfg.max_pct) :
    clamp_pct cfg cfg.mid_pct = cfg.mid_pct := by
  simp only [clamp_pct, min_pct_effective, max_pct_effective]
  split_ifs <;> first | rfl | linarith

theorem percent_to_u16_of_mid : pwm_host_percent_to_u16 PWM_HOST_PCT_MID = 5000 := by
  norm_num [pwm_host_percent_to_u16, PWM_HOST_PCT_MID, PWM_HOST_PCT_MIN, PWM_HOST_PCT_MAX,
    PWM_HOST_VAL_MIN, PWM_HOST_VAL_MAX, Int.floor_eq_iff]
  rfl

/-! ## Claim C1 -/

/-- Claim C1: for every channel, every configured positive `max_step`, and
arbitrary current/target values inside the configured range, a single
`pwm_ctrl_step` changes that channel's current value by at most `max_step`
in absolute value, and channels outside the active group change by zero. -/
theorem C1_step_slew_bound (cfg : PwmCtrlConfig) (emit : (Fin 8 → ℚ) → Bool)
    (st : PwmCtrlState) (i : Fin 8) (hms : 0 < cfg.max_step_pct)
    (hlo : min_pct_effective cfg ≤ st.current_pct i)
    (hhi : st.current_pct i ≤ max_pct_effective cfg) :
    |(pwm_ctrl_step cfg emit st).2.current_pct i - st.current_pct i| ≤ cfg.max_step_pct ∧
    (ch_in_mask (i.val + 1) (active_mask_for_this_step cfg st.group_toggle).1 = false →
      (pwm_ctrl_step cfg emit st).2.current_pct i = st.current_pct i) := by
  by_cases hin : st.inited = true
  · by_cases hemit : emit (pwm_ctrl_next cfg st) = true
    · simp only [pwm_ctrl_step, hin, Bool.not_true, Bool.false_eq_true, if_false, hemit,
        if_true]
      exact ⟨pwm_ctrl_next_abs_le cfg st i hms hlo hhi,
             fun hf => pwm_ctrl_next_inactive cfg st i hf⟩
    · simp only [pwm_ctrl_step, hin, Bool.not_true, Bool.false_eq_true, if_false, hemit]
      constructor
      · rw [sub_self, abs_zero]
        exact hms.le
      · intro _
        trivial
  · have hin' : st.inited = false := Bool.not_eq_true _ ▸ (by simpa using hin)
    simp only [pwm_ctrl_step, hin', Bool.not_false, if_true]
    constructor
    · rw [sub_self, abs_zero]
      exact hms.le
    · intro _
      trivial

/-- Witness for C1 at the default configuration, channel 1 at mid with a
far-away target. -/
theorem C1_step_slew_bound_witness :
    (0 : ℚ) < 1/5 ∧
    (|(pwm_ctrl_step ⟨50, 1/5, 5, 15/2, 10, true, 15, 240, 1⟩ (fun _ => true)
        ⟨true, fun _ => 15/2, fun _ => 9, 0, 0⟩).2.current_pct 0 - 15/2| ≤ 1/5 ∧
     (ch_in_mask ((0 : Fin 8).val + 1)
         (active_mask_for_this_step ⟨50, 1/5, 5, 15/2, 10, true, 15, 240, 1⟩ 0).1 = false →
       (pwm_ctrl_step ⟨50, 1/5, 5, 15/2, 10, true, 15, 240, 1⟩ (fun _ => true)
         ⟨true, fun _ => 15/2, fun _ => 9, 0, 0⟩).2.current_pct 0 = 15/2)) :=
  ⟨by norm_num,
   C1_step_slew_bound ⟨50, 1/5, 5, 15/2, 10, true, 15, 240, 1⟩ (fun _ => true)
     ⟨true, fun _ => 15/2, fun _ => 9, 0, 0⟩ 0 (by norm_num)
     (by norm_num [min_pct_effective]) (by norm_num [max_pct_effective])⟩

/-! ## Claim C5 -/

/-- Claim C5 counterexample: in `AB_ALTERNATE` mode, a `pwm_ctrl_step` whose
downstream emit fails still advances the group toggle (0 → 1), because
`active_mask_for_this_step` flips it before the emit is attempted; the retry
therefore computes a different output for channel 1.  This refutes the claim
that a failed `step()` leaves the state selecting the active group
unchanged. -/
theorem C5_group_toggle_counterexample :
    let cfg : PwmCtrlConfig := ⟨50, 1/5, 5, 15/2, 10, true, 15, 240, 1⟩
    let st : PwmCtrlState := ⟨true, fun _ => 15/2, fun i => if i.val = 0 then 9 else 15/2, 0, 0⟩
    let r := pwm_ctrl_step cfg (fun _ => false) st
    r.1 = PWM_CTRL_ERR_INTERNAL ∧ r.2.group_toggle = 1 ∧ st.group_toggle = 0 ∧
    pwm_ctrl_next cfg r.2 0 ≠ pwm_ctrl_next cfg st 0 := by
  simp only [pwm_ctrl_step, pwm_ctrl_next, active_mask_for_this_step, max_step_pct_effective,
    clamp_pct, min_pct_effective, max_pct_effective, ch_in_mask, reverse_eps,
    PWM_CTRL_GROUP_MODE_ALL, PWM_CH_MASK_ALL, PWM_CTRL_ERR_INTERNAL]
  norm_num [abs_of_pos]

/-- Claim C5 (amended): if the downstream emit fails, `pwm_ctrl_step` returns
`PWM_CTRL_ERR_INTERNAL` and leaves the per-channel current values, the
targets and the tick counter unchanged; the group-alternation toggle,
however, has already been advanced by `active_mask_for_this_step`. -/
theorem C5_emit_failure_keeps_tick (cfg : PwmCtrlConfig) (emit : (Fin 8 → ℚ) → Bool)
    (st : PwmCtrlState) (hin : st.inited = true)
    (hfail : emit (pwm_ctrl_next cfg st) = false) :
    (pwm_ctrl_step cfg emit st).1 = PWM_CTRL_ERR_INTERNAL ∧
    (pwm_ctrl_step cfg emit st).2.current_pct = st.current_pct ∧
    (pwm_ctrl_step cfg emit st).2.target_pct = st.target_pct ∧
    (pwm_ctrl_step cfg emit st).2.step_count = st.step_count ∧
    (pwm_ctrl_step cfg emit st).2.group_toggle =
      (active_mask_for_this_step cfg st.group_toggle).2 := by
  simp [pwm_ctrl_step, hin, hfail]

/-- Witness for the amended C5 with an always-failing emitter. -/
theorem C5_emit_failure_keeps_tick_witness :
    (⟨true, fun _ => (15:ℚ)/2, fun _ => 9, 0, 0⟩ : PwmCtrlState).inited = true ∧
    ((pwm_ctrl_step ⟨50, 1/5, 5, 15/2, 10, true, 15, 240, 1⟩ (fun _ => false)
        ⟨true, fun _ => 15/2, fun _ => 9, 0, 0⟩).1 = PWM_CTRL_ERR_INTERNAL ∧
     (pwm_ctrl_step ⟨50, 1/5, 5, 15/2, 10, true, 15, 240, 1⟩ (fun _ => false)
        ⟨true, fun _ => 15/2, fun _ => 9, 0, 0⟩).2.current_pct =
        (⟨true, fun _ => (15:ℚ)/2, fun _ => 9, 0, 0⟩ : PwmCtrlState).current_pct ∧
     (pwm_ctrl_step ⟨50, 1/5, 5, 15/2, 10, true, 15, 240, 1⟩ (fun _ => false)
        ⟨true, fun _ => 15/2, fun _ => 9, 0, 0⟩).2.target_pct =
        (⟨true, fun _ => (15:ℚ)/2, fun _ => 9, 0, 0⟩ : PwmCtrlState).target_pct ∧
     (pwm_ctrl_step ⟨50, 1/5, 5, 15/2, 10, true, 15, 240, 1⟩ (fun _ => false)
        ⟨true, fun _ => 15/2, fun _ => 9, 0, 0⟩).2.step_count = 0 ∧
     (pwm_ctrl_step ⟨50, 1/5, 5, 15/2, 10, true, 15, 240, 1⟩ (fun _ => false)
        ⟨true, fun _ => 15/2, fun _ => 9, 0, 0⟩).2.group_toggle =
       (active_mask_for_this_step ⟨50, 1/5, 5, 15/2, 10, true, 15, 240, 1⟩ 0).2) :=
  ⟨rfl,
   C5_emit_failure_keeps_tick ⟨50, 1/5, 5, 15/2, 10, true, 15, 240, 1⟩ (fun _ => false)
     ⟨true, fun _ => 15/2, fun _ => 9, 0, 0⟩ rfl rfl⟩

/-! ## Claim C2 -/

/-- Claim C2 counterexample: with the default 300 ms timeout and no valid
frame ever received (`lastOkRxMs = 0`), polling at t = 301 fires the
neutral-output side effect, and polling again at t = 602 — still within the
same continuous outage, with no frame in between — fires it a second time,
because `protocol_poll` refreshed `s_last_ok_rx_ms` on the first firing.
This refutes "invoked exactly once for that continuous outage". -/
theorem C2_refire_counterexample :
    let st : ProtoState := ⟨[], 0, 0, 0, 0, 0, 300, 0⟩
    let r1 := protocol_poll 301 st
    let r2 := protocol_poll 602 r1.1
    r1.2.isSome = true ∧ r2.2.isSome = true := by decide

/-- Claim C2 (amended): `protocol_poll` fires the neutral-output effect
exactly when more than the configured timeout has elapsed since
`lastOkRxMs`; each firing refreshes that timestamp, so within any following
interval of at most the timeout no further firing occurs (at most one firing
per elapsed timeout window, not one per poll); and a valid frame received at
time `now` likewise suppresses firing for a full timeout window.  During an
outage lasting several windows the effect fires once per window. -/
theorem C2_failsafe_window (st : ProtoState) (now now2 : ℕ) :
    ((protocol_poll now st).2.isSome ↔
        u32_sub now st.lastOkRxMs > st.failsafeTimeoutMs) ∧
    ((protocol_poll now st).2.isSome →
        u32_sub now2 now ≤ st.failsafeTimeoutMs →
        (protocol_poll now2 (protocol_poll now st).1).2 = none) ∧
    (u32_sub now2 now ≤ st.failsafeTimeoutMs →
        (protocol_poll now2 { st with lastOkRxMs := now }).2 = none) := by
  refine ⟨?_, ?_, ?_⟩
  · unfold protocol_poll
    split_ifs with h <;> simp [h]
  · intro hfire hle
    unfold protocol_poll at hfire ⊢
    split_ifs at hfire ⊢ with h1 h2
    · exact absurd h2 (not_lt.mpr hle)
    · rfl
    · simp at hfire
    · rfl
  · intro hle
    unfold protocol_poll
    split_ifs with h1
    · exact absurd h1 (not_lt.mpr hle)
    · rfl

/-- Witness for the amended C2. -/
theorem C2_failsafe_window_witness :
    (((protocol_poll 301 ⟨[], 0, 0, 0, 0, 0, 300, 0⟩).2.isSome ↔
        u32_sub 301 0 > 300) ∧
     ((protocol_poll 301 ⟨[], 0, 0, 0, 0, 0, 300, 0⟩).2.isSome →
        u32_sub 400 301 ≤ 300 →
        (protocol_poll 400 (protocol_poll 301 ⟨[], 0, 0, 0, 0, 0, 300, 0⟩).1).2 = none) ∧
     (u32_sub 400 301 ≤ 300 →
        (protocol_poll 400 ⟨[], 0, 0, 0, 0, 301, 300, 0⟩).2 = none)) :=
  C2_failsafe_window ⟨[], 0, 0, 0, 0, 0, 300, 0⟩ 301 400

theorem try_parse_hb_shape (now : ℕ) (st : ProtoState) (m s1 s0 t3 t2 t1 t0 cb1 cb0 : ℕ)
    (hbuf : st.rxbuf = [0xAA, 0x55, 0x01, m, s1, s0, t3, t2, t1, t0, 0, 0, cb1, cb0])
    (hcrc : be16_read cb1 cb0 = crc16_ccitt [0x01, m, s1, s0, t3, t2, t1, t0, 0, 0]) :
    try_parse_one_frame now st =
      dispatch_msg now st m (be16_read s1 s0) (be32_read t3 t2 t1 t0) [] 0 14 := by
  unfold try_parse_one_frame
  rw [hbuf]
  simp only [be16_read] at hcrc
  simp [sof_scan, hcrc, be16_read, be32_read, MIN_FRAME_LEN, PROTO_VER_1,
    CFG_PROTO_RX_BUF_CAP, SOF_B0, SOF_B1]

theorem try_parse_pwm_shape (now : ℕ) (st : ProtoState) (m s1 s0 t3 t2 t1 t0 : ℕ)
    (q0 q1 q2 q3 q4 q5 q6 q7 q8 q9 q10 q11 q12 q13 q14 q15 cb1 cb0 : ℕ)
    (hbuf : st.rxbuf = [0xAA, 0x55, 0x01, m, s1, s0, t3, t2, t1, t0, 0, 16,
      q0, q1, q2, q3, q4, q5, q6, q7, q8, q9, q10, q11, q12, q13, q14, q15, cb1, cb0])
    (hcrc : be16_read cb1 cb0 = crc16_ccitt [0x01, m, s1, s0, t3, t2, t1, t0, 0, 16,
      q0, q1, q2, q3, q4, q5, q6, q7, q8, q9, q10, q11, q12, q13, q14, q15]) :
    try_parse_one_frame now st =
      dispatch_msg now st m (be16_read s1 s0) (be32_read t3 t2 t1 t0)
        [q0, q1, q2, q3, q4, q5, q6, q7, q8, q9, q10, q11, q12, q13, q14, q15] 16 30 := by
  unfold try_parse_one_frame
  rw [hbuf]
  simp only [be16_read] at hcrc
  simp [sof_scan, hcrc, be16_read, be32_read, MIN_FRAME_LEN, PROTO_VER_1,
    CFG_PROTO_RX_BUF_CAP, SOF_B0, SOF_B1]

/-! ## Claim C9 -/

set_option maxRecDepth 40000 in
/-- Claim C9 counterexample: the device receives a heartbeat whose timestamp
field carries 1234, at local time 777.  The transmitted ACK echoes the
sequence number but its timestamp field holds the device's own
`HAL_GetTick()` (777), not the received 1234 — the timestamp is not echoed
verbatim. -/
theorem C9_ack_own_clock_counterexample :
    let hb := protocol_pack_heartbeat 9 1234
    let r := try_parse_one_frame 777 { protocol_init 0 with rxbuf := hb }
    ((hb.drop 6).take 4 = be32_bytes 1234 ∧
     hbAckOf r.ev = some (handle_msg_hb 9 1234 777) ∧
     ((handle_msg_hb 9 1234 777).drop 4).take 2 = be16_bytes 9 ∧
     ((handle_msg_hb 9 1234 777).drop 6).take 4 = be32_bytes 777 ∧
     be32_bytes 777 ≠ be32_bytes 1234) := by decide

/-- Claim C9 (amended): for every valid heartbeat frame, the device replies
with an ACK whose sequence field echoes the heartbeat's sequence number and
whose timestamp field carries the device's own clock `now` at reply time;
the received timestamp is ignored, not echoed. -/
theorem C9_hb_ack_echo (seq ticks now : ℕ) (st : ProtoState) (hseq : seq < 65536)
    (hbuf : st.rxbuf = protocol_pack_heartbeat seq ticks) :
    (try_parse_one_frame now st).again = true ∧
    (try_parse_one_frame now st).consumed = 14 ∧
    (try_parse_one_frame now st).valid = some MSG_HB ∧
    hbAckOf (try_parse_one_frame now st).ev = some (handle_msg_hb seq ticks now) ∧
    ((handle_msg_hb seq ticks now).drop 4).take 2 = be16_bytes seq ∧
    ((handle_msg_hb seq ticks now).drop 6).take 4 = be32_bytes now := by
  have hshape := try_parse_hb_shape now st MSG_HB ((seq >>> 8) % 256) (seq &&& 0xFF)
    ((ticks >>> 24) % 256) ((ticks >>> 16) % 256) ((ticks >>> 8) % 256) (ticks &&& 0xFF)
    ((crc16_ccitt [0x01, MSG_HB, (seq >>> 8) % 256, seq &&& 0xFF, (ticks >>> 24) % 256,
        (ticks >>> 16) % 256, (ticks >>> 8) % 256, ticks &&& 0xFF, 0, 0] >>> 8) % 256)
    (crc16_ccitt [0x01, MSG_HB, (seq >>> 8) % 256, seq &&& 0xFF, (ticks >>> 24) % 256,
        (ticks >>> 16) % 256, (ticks >>> 8) % 256, ticks &&& 0xFF, 0, 0] &&& 0xFF)
    (hbuf.trans rfl) (be16_read_split _ (crc16_ccitt_lt _))
  rw [hshape]
  refine ⟨dispatch_msg_again _ _ _ _ _ _ _ _, dispatch_msg_consumed _ _ _ _ _ _ _ _,
    dispatch_msg_valid _ _ _ _ _ _ _ _, ?_, rfl, rfl⟩
  simp [dispatch_msg, MSG_HB, MSG_PWM, hbAckOf, be16_read_split seq hseq,
    handle_msg_hb]

/-- Witness for the amended C9 at a concrete heartbeat. -/
theorem C9_hb_ack_echo_witness :
    (9 < 65536 ∧
      ({ protocol_init 0 with rxbuf := protocol_pack_heartbeat 9 1234 } :
        ProtoState).rxbuf = protocol_pack_heartbeat 9 1234) ∧
    ((try_parse_one_frame 777
        { protocol_init 0 with rxbuf := protocol_pack_heartbeat 9 1234 }).again = true ∧
     (try_parse_one_frame 777
        { protocol_init 0 with rxbuf := protocol_pack_heartbeat 9 1234 }).consumed = 14 ∧
     (try_parse_one_frame 777
        { protocol_init 0 with rxbuf := protocol_pack_heartbeat 9 1234 }).valid = some MSG_HB ∧
     hbAckOf (try_parse_one_frame 777
        { protocol_init 0 with rxbuf := protocol_pack_heartbeat 9 1234 }).ev =
        some (handle_msg_hb 9 1234 777) ∧
     ((handle_msg_hb 9 1234 777).drop 4).take 2 = be16_bytes 9 ∧
     ((handle_msg_hb 9 1234 777).drop 6).take 4 = be32_bytes 777) :=
  ⟨⟨by norm_num, rfl⟩,
   C9_hb_ack_echo 9 1234 777 { protocol_init 0 with rxbuf := protocol_pack_heartbeat 9 1234 }
     (by norm_num) rfl⟩

/-! ## Claim C3 -/

theorem clamp_u16_lt (v : ℕ) : clamp_u16_10000 v < 65536 := by
  unfold clamp_u16_10000
  split <;> omega

theorem min_clamp_u16 (v : ℕ) : min (clamp_u16_10000 v) 10000 = min v 10000 := by
  unfold clamp_u16_10000
  split <;> omega

/-- Claim C3: for every 8-vector of 16-bit channel values, packing it as a
COMMAND frame with the host packer and parsing the bytes with the device
decoder succeeds — version, length and CRC checks all pass, the whole
30-byte frame is consumed, `rx_ok` is counted — and the dispatched channel
values are exactly the originals clamped to 0..10000. -/
theorem C3_command_roundtrip (v : Fin 8 → ℕ) (seq ticks now : ℕ) (st : ProtoState)
    (hv : ∀ i, v i < 65536)
    (hbuf : st.rxbuf = protocol_pack_pwm v seq ticks) :
    (try_parse_one_frame now st).again = true ∧
    (try_parse_one_frame now st).consumed = 30 ∧
    (try_parse_one_frame now st).valid = some MSG_PWM ∧
    (try_parse_one_frame now st).st.rx_ok = st.rx_ok + 1 ∧
    pwmValsOf (try_parse_one_frame now st).ev = some (fun i => min (v i) 10000) := by
  have hshape := try_parse_pwm_shape now st MSG_PWM ((seq >>> 8) % 256) (seq &&& 0xFF)
    ((ticks >>> 24) % 256) ((ticks >>> 16) % 256) ((ticks >>> 8) % 256) (ticks &&& 0xFF)
    ((clamp_u16_10000 (v 0) >>> 8) % 256) (clamp_u16_10000 (v 0) &&& 0xFF)
    ((clamp_u16_10000 (v 1) >>> 8) % 256) (clamp_u16_10000 (v 1) &&& 0xFF)
    ((clamp_u16_10000 (v 2) >>> 8) % 256) (clamp_u16_10000 (v 2) &&& 0xFF)
    ((clamp_u16_10000 (v 3) >>> 8) % 256) (clamp_u16_10000 (v 3) &&& 0xFF)
    ((clamp_u16_10000 (v 4) >>> 8) % 256) (clamp_u16_10000 (v 4) &&& 0xFF)
    ((clamp_u16_10000 (v 5) >>> 8) % 256) (clamp_u16_10000 (v 5) &&& 0xFF)
    ((clamp_u16_10000 (v 6) >>> 8) % 256) (clamp_u16_10000 (v 6) &&& 0xFF)
    ((clamp_u16_10000 (v 7) >>> 8) % 256) (clamp_u16_10000 (v 7) &&& 0xFF)
    _ _ (hbuf.trans rfl) (be16_read_split _ (crc16_ccitt_lt _))
  rw [hshape]
  have h0 := be16_read_split (clamp_u16_10000 (v 0)) (clamp_u16_lt _)
  have h1 := be16_read_split (clamp_u16_10000 (v 1)) (clamp_u16_lt _)
  have h2 := be16_read_split (clamp_u16_10000 (v 2)) (clamp_u16_lt _)
  have h3 := be16_read_split (clamp_u16_10000 (v 3)) (clamp_u16_lt _)
  have h4 := be16_read_split (clamp_u16_10000 (v 4)) (clamp_u16_lt _)
  have h5 := be16_read_split (clamp_u16_10000 (v 5)) (clamp_u16_lt _)
  have h6 := be16_read_split (clamp_u16_10000 (v 6)) (clamp_u16_lt _)
  have h7 := be16_read_split (clamp_u16_10000 (v 7)) (clamp_u16_lt _)
  refine ⟨dispatch_msg_again _ _ _ _ _ _ _ _, dispatch_msg_consumed _ _ _ _ _ _ _ _,
    dispatch_msg_valid _ _ _ _ _ _ _ _, ?_, ?_⟩
  · simp [dispatch_msg, MSG_PWM, handle_msg_pwm]
  · simp only [dispatch_msg, MSG_PWM, handle_msg_pwm, if_pos, if_neg, pwmValsOf]
    norm_num [pwmValsOf]
    funext i
    fin_cases i <;>
      simp [h0, h1, h2, h3, h4, h5, h6, h7, min_clamp_u16]

/-- Witness for C3 at a concrete vector exercising the 10000 clamp. -/
theorem C3_command_roundtrip_witness :
    ((∀ i : Fin 8, (fun j : Fin 8 => 2000 * j.val) i < 65536) ∧
     ({ protocol_init 0 with
         rxbuf := protocol_pack_pwm (fun j => 2000 * j.val) 5 99 } : ProtoState).rxbuf =
       protocol_pack_pwm (fun j => 2000 * j.val) 5 99) ∧
    ((try_parse_one_frame 4 { protocol_init 0 with
        rxbuf := protocol_pack_pwm (fun j => 2000 * j.val) 5 99 }).again = true ∧
     (try_parse_one_frame 4 { protocol_init 0 with
        rxbuf := protocol_pack_pwm (fun j => 2000 * j.val) 5 99 }).consumed = 30 ∧
     (try_parse_one_frame 4 { protocol_init 0 with
        rxbuf := protocol_pack_pwm (fun j => 2000 * j.val) 5 99 }).valid = some MSG_PWM ∧
     (try_parse_one_frame 4 { protocol_init 0 with
        rxbuf := protocol_pack_pwm (fun j => 2000 * j.val) 5 99 }).st.rx_ok = 0 + 1 ∧
     pwmValsOf (try_parse_one_frame 4 { protocol_init 0 with
        rxbuf := protocol_pack_pwm (fun j => 2000 * j.val) 5 99 }).ev =
       some (fun i => min (2000 * i.val) 10000)) :=
  ⟨⟨fun i => by fin_cases i <;> norm_num, rfl⟩,
   C3_command_roundtrip (fun j => 2000 * j.val) 5 99 4
     { protocol_init 0 with rxbuf := protocol_pack_pwm (fun j => 2000 * j.val) 5 99 }
     (fun i => by fin_cases i <;> norm_num) rfl⟩

/-! ## Claim C6 -/

theorem try_parse_nil (now : ℕ) (st : ProtoState) (h : st.rxbuf = []) :
    try_parse_one_frame now st = ⟨false, 0, st, none, none⟩ := by
  unfold try_parse_one_frame
  rw [h]
  rfl

theorem feed_simple (st : ProtoState) (data : List ℕ) (hflag : st.flag = 0)
    (hne : data.length ≠ 0) (hsum : st.rxbuf.length + data.length ≤ 512) :
    protocol_feed_bytes st data = { st with rxbuf := st.rxbuf ++ data, flag := 1 } := by
  have h1 : ¬ data.length > CFG_PROTO_RX_BUF_CAP := by
    unfold CFG_PROTO_RX_BUF_CAP
    omega
  have h2 : ¬ st.rxbuf.length + data.length > CFG_PROTO_RX_BUF_CAP := by
    unfold CFG_PROTO_RX_BUF_CAP
    omega
  simp [protocol_feed_bytes, hflag, hne, h1, h2]

theorem process_aux_step (now fuel : ℕ) (st : ProtoState) (acc : List ProtoEvent)
    (hagain : (try_parse_one_frame now st).again = true) :
    process_rx_buffer_aux now (fuel + 1) st acc =
      process_rx_buffer_aux now fuel
        { (try_parse_one_frame now st).st with
            rxbuf := (try_parse_one_frame now st).st.rxbuf.drop
              (try_parse_one_frame now st).consumed }
        (acc ++ (try_parse_one_frame now st).ev.toList) := by
  simp [process_rx_buffer_aux, hagain]

theorem process_aux_stop (now fuel : ℕ) (st : ProtoState) (acc : List ProtoEvent)
    (h : (try_parse_one_frame now st).again = false) :
    process_rx_buffer_aux now (fuel + 1) st acc = (acc, st, true) := by
  simp [process_rx_buffer_aux, h]

theorem process_aux_empty (now fuel : ℕ) (st : ProtoState) (acc : List ProtoEvent)
    (h : st.rxbuf = []) (hf : 0 < fuel) :
    process_rx_buffer_aux now fuel st acc = (acc, st, true) := by
  cases fuel with
  | zero => omega
  | succ n => simp [process_rx_buffer_aux, try_parse_nil now st h]

theorem try_parse_pwm_prefix (now : ℕ) (st : ProtoState) (v : Fin 8 → ℕ)
    (seq ticks k : ℕ) (hk1 : 0 < k) (hk2 : k < 30)
    (hbuf : st.rxbuf = (protocol_pack_pwm v seq ticks).take k) :
    try_parse_one_frame now st = ⟨false, 0, st, none, none⟩ := by
  have e16 : (16 : ℕ) &&& 255 = 16 := rfl
  unfold try_parse_one_frame
  rw [hbuf]
  interval_cases k <;>
    simp [protocol_pack_pwm, be16_bytes, be32_bytes, sof_scan, be16_read, e16,
      MIN_FRAME_LEN, PROTO_VER_1, CFG_PROTO_RX_BUF_CAP, SOF_B0, SOF_B1]

theorem try_parse_hb_prefix (now : ℕ) (st : ProtoState) (seq ticks k : ℕ)
    (hk1 : 0 < k) (hk2 : k < 14)
    (hbuf : st.rxbuf = (protocol_pack_heartbeat seq ticks).take k) :
    try_parse_one_frame now st = ⟨false, 0, st, none, none⟩ := by
  unfold try_parse_one_frame
  rw [hbuf]
  interval_cases k <;>
    simp [protocol_pack_heartbeat, be16_bytes, be32_bytes, sof_scan, be16_read,
      MIN_FRAME_LEN, PROTO_VER_1, CFG_PROTO_RX_BUF_CAP, SOF_B0, SOF_B1]

/-- Common split-ingest argument: if parsing the first `k` bytes of `f`
always waits without consuming, and parsing the whole of `f` dispatches one
event consuming all of it, then feeding `f` in two chunks with a drain after
each yields no event after the first drain and exactly one after the second,
with the buffer emptied. -/
theorem split_ingest_core (f : List ℕ) (k now1 now2 : ℕ) (st : ProtoState)
    (hflag : st.flag = 0) (hbuf : st.rxbuf = []) (hk1 : 0 < k) (hk2 : k < f.length)
    (hcap : f.length ≤ 512)
    (hwait : ∀ s : ProtoState, s.rxbuf = f.take k →
        try_parse_one_frame now1 s = ⟨false, 0, s, none, none⟩)
    (hfull : ∀ s : ProtoState, s.rxbuf = f →
        (try_parse_one_frame now2 s).again = true ∧
        (try_parse_one_frame now2 s).consumed = f.length ∧
        (try_parse_one_frame now2 s).st.rxbuf = f ∧
        (try_parse_one_frame now2 s).ev.toList.length = 1) :
    let r1 := protocol_process now1 (protocol_feed_bytes st (f.take k))
    let r2 := protocol_process now2 (protocol_feed_bytes r1.2 (f.drop k))
    r1.1 = [] ∧ r2.1.length = 1 ∧ r2.2.rxbuf = [] ∧ r2.2.flag = 0 := by
  intro r1 r2
  have hlen_take : (f.take k).length = k := by
    rw [List.length_take]
    omega
  have hfeed1 : protocol_feed_bytes st (f.take k) =
      { st with rxbuf := f.take k, flag := 1 } := by
    rw [feed_simple st (f.take k) hflag (by omega) (by rw [hbuf, hlen_take]; simp; omega)]
    rw [hbuf]
    simp
  have hst1buf : (protocol_feed_bytes st (f.take k)).rxbuf = f.take k := by rw [hfeed1]
  have hst1flag : (protocol_feed_bytes st (f.take k)).flag = 1 := by rw [hfeed1]
  have hparse1 := hwait _ hst1buf
  have hproc1 : r1 = ([], { protocol_feed_bytes st (f.take k) with flag := 0 }) := by
    show protocol_process now1 (protocol_feed_bytes st (f.take k)) = _
    unfold protocol_process process_rx_buffer
    rw [if_pos hst1flag]
    rw [process_aux_stop _ _ _ _ (by rw [hparse1])]
  have hr12 : r1.2 = { protocol_feed_bytes st (f.take k) with flag := 0 } := by
    rw [hproc1]
  have hr12buf : r1.2.rxbuf = f.take k := by
    rw [hr12]
    simp [hfeed1]
  have hr12flag : r1.2.flag = 0 := by
    rw [hr12]
  have hfeed2 := feed_simple r1.2 (f.drop k) hr12flag
    (by rw [List.length_drop]; omega)
    (by rw [hr12buf, hlen_take, List.length_drop]; omega)
  have hst2flag : (protocol_feed_bytes r1.2 (f.drop k)).flag = 1 := by
    rw [hfeed2]
  have hst2buf : (protocol_feed_bytes r1.2 (f.drop k)).rxbuf = f := by
    rw [hfeed2]
    show r1.2.rxbuf ++ f.drop k = f
    rw [hr12buf]
    exact List.take_append_drop k f
  obtain ⟨hagain2, hcons2, hprxbuf2, hev2⟩ := hfull _ hst2buf
  have hproc2 : r2.1.length = 1 ∧ r2.2.rxbuf = [] ∧ r2.2.flag = 0 := by
    show (protocol_process now2 (protocol_feed_bytes r1.2 (f.drop k))).1.length = 1 ∧
      (protocol_process now2 (protocol_feed_bytes r1.2 (f.drop k))).2.rxbuf = [] ∧
      (protocol_process now2 (protocol_feed_bytes r1.2 (f.drop k))).2.flag = 0
    unfold protocol_process process_rx_buffer
    rw [if_pos hst2flag, hst2buf,
      process_aux_step _ _ _ _ hagain2, hprxbuf2, hcons2, List.drop_length,
      process_aux_empty _ _ _ _ rfl (by omega)]
    simp only [List.nil_append]
    exact ⟨hev2, by trivial, by trivial⟩
  refine ⟨by rw [hproc1], hproc2.1, hproc2.2.1, hproc2.2.2⟩

/-- Claim C6 counterexample: a valid 30-byte COMMAND frame is fed in two
chunks with no drain between the two ingest calls.  Because
`protocol_feed_bytes` is gated on `protocol_flag == 0` and the first ingest
left the flag raised, the second chunk is discarded entirely: the buffer
still holds only the first 15 bytes and the drain that follows decodes zero
frames — not the one frame the claim promises regardless of an intervening
drain. -/
theorem C6_flag_gate_counterexample :
    let f := protocol_pack_pwm (fun _ => 5000) 1 2
    let st1 := protocol_feed_bytes (protocol_init 0) (f.take 15)
    let st2 := protocol_feed_bytes st1 (f.drop 15)
    let r := protocol_process 3 st2
    st2.rxbuf = f.take 15 ∧ r.1.length = 0 ∧ r.2.rxbuf = f.take 15 := by decide

/-- Claim C6 (amended): for every valid frame — a packed COMMAND frame or a
packed HEARTBEAT frame — and every split point, feeding the two chunks by
two ingest calls with a drain run after each (so that the first drain
clears the processing flag before the second ingest) yields zero decoded
frames after the first drain and exactly one after the second, leaving the
buffer empty.  Without the intermediate drain the second ingest is dropped
by the flag gate (`C6_flag_gate_counterexample`). -/
theorem C6_split_ingest (f : List ℕ) (k now1 now2 : ℕ) (st : ProtoState)
    (hframe : (∃ v seq ticks, f = protocol_pack_pwm v seq ticks) ∨
        ∃ seq ticks, f = protocol_pack_heartbeat seq ticks)
    (hflag : st.flag = 0) (hbuf : st.rxbuf = []) (hk1 : 0 < k) (hk2 : k < f.length) :
    let r1 := protocol_process now1 (protocol_feed_bytes st (f.take k))
    let r2 := protocol_process now2 (protocol_feed_bytes r1.2 (f.drop k))
    r1.1 = [] ∧ r2.1.length = 1 ∧ r2.2.rxbuf = [] ∧ r2.2.flag = 0 := by
  rcases hframe with ⟨v, seq, ticks, hfe⟩ | ⟨seq, ticks, hfe⟩
  · subst hfe
    have hlenf : (protocol_pack_pwm v seq ticks).length = 30 := rfl
    have hk30 : k < 30 := by rw [hlenf] at hk2; exact hk2
    refine split_ingest_core _ k now1 now2 st hflag hbuf hk1 hk2
      (by rw [hlenf]; norm_num) ?_ ?_
    · intro s hs
      exact try_parse_pwm_prefix now1 s v seq ticks k hk1 hk30 hs
    · intro s hs
      have hshape := try_parse_pwm_shape now2 s MSG_PWM
        ((seq >>> 8) % 256) (seq &&& 0xFF)
        ((ticks >>> 24) % 256) ((ticks >>> 16) % 256) ((ticks >>> 8) % 256) (ticks &&& 0xFF)
        ((clamp_u16_10000 (v 0) >>> 8) % 256) (clamp_u16_10000 (v 0) &&& 0xFF)
        ((clamp_u16_10000 (v 1) >>> 8) % 256) (clamp_u16_10000 (v 1) &&& 0xFF)
        ((clamp_u16_10000 (v 2) >>> 8) % 256) (clamp_u16_10000 (v 2) &&& 0xFF)
        ((clamp_u16_10000 (v 3) >>> 8) % 256) (clamp_u16_10000 (v 3) &&& 0xFF)
        ((clamp_u16_10000 (v 4) >>> 8) % 256) (clamp_u16_10000 (v 4) &&& 0xFF)
        ((clamp_u16_10000 (v 5) >>> 8) % 256) (clamp_u16_10000 (v 5) &&& 0xFF)
        ((clamp_u16_10000 (v 6) >>> 8) % 256) (clamp_u16_10000 (v 6) &&& 0xFF)
        ((clamp_u16_10000 (v 7) >>> 8) % 256) (clamp_u16_10000 (v 7) &&& 0xFF)
        _ _ (hs.trans rfl) (be16_read_split _ (crc16_ccitt_lt _))
      rw [hshape, hlenf]
      refine ⟨dispatch_msg_again _ _ _ _ _ _ _ _, dispatch_msg_consumed _ _ _ _ _ _ _ _,
        (dispatch_msg_rxbuf _ _ _ _ _ _ _ _).trans hs, ?_⟩
      simp [dispatch_msg, MSG_PWM, handle_msg_pwm]
  · subst hfe
    have hlenf : (protocol_pack_heartbeat seq ticks).length = 14 := rfl
    have hk14 : k < 14 := by rw [hlenf] at hk2; exact hk2
    refine split_ingest_core _ k now1 now2 st hflag hbuf hk1 hk2
      (by rw [hlenf]; norm_num) ?_ ?_
    · intro s hs
      exact try_parse_hb_prefix now1 s seq ticks k hk1 hk14 hs
    · intro s hs
      have hshape := try_parse_hb_shape now2 s MSG_HB
        ((seq >>> 8) % 256) (seq &&& 0xFF)
        ((ticks >>> 24) % 256) ((ticks >>> 16) % 256) ((ticks >>> 8) % 256) (ticks &&& 0xFF)
        _ _ (hs.trans rfl) (be16_read_split _ (crc16_ccitt_lt _))
      rw [hshape, hlenf]
      refine ⟨dispatch_msg_again _ _ _ _ _ _ _ _, dispatch_msg_consumed _ _ _ _ _ _ _ _,
        (dispatch_msg_rxbuf _ _ _ _ _ _ _ _).trans hs, ?_⟩
      simp [dispatch_msg, MSG_HB, MSG_PWM]

/-- Witness for the amended C6 at a concrete COMMAND frame split at byte 15. -/
theorem C6_split_ingest_witness :
    ((∃ v seq ticks,
        protocol_pack_pwm (fun _ => 4000) 1 2 = protocol_pack_pwm v seq ticks) ∨
      ∃ seq ticks,
        protocol_pack_pwm (fun _ => 4000) 1 2 = protocol_pack_heartbeat seq ticks) ∧
    ((protocol_init 0).flag = 0 ∧ (protocol_init 0).rxbuf = [] ∧ 0 < 15 ∧
      15 < (protocol_pack_pwm (fun _ => 4000) 1 2).length) ∧
    (let f := protocol_pack_pwm (fun _ => 4000) 1 2
     let r1 := protocol_process 3 (protocol_feed_bytes (protocol_init 0) (f.take 15))
     let r2 := protocol_process 4 (protocol_feed_bytes r1.2 (f.drop 15))
     r1.1 = [] ∧ r2.1.length = 1 ∧ r2.2.rxbuf = [] ∧ r2.2.flag = 0) :=
  ⟨Or.inl ⟨fun _ => 4000, 1, 2, rfl⟩,
   ⟨rfl, rfl, by norm_num, by decide⟩,
   C6_split_ingest (protocol_pack_pwm (fun _ => 4000) 1 2) 15 3 4 (protocol_init 0)
     (Or.inl ⟨fun _ => 4000, 1, 2, rfl⟩) rfl rfl
     (by norm_num) (by decide)⟩

/-! ## Claim C8 -/

theorem sof_scan_lt (l : List ℕ) (h : l ≠ []) : sof_scan l < l.length := by
  induction l with
  | nil => exact absurd rfl h
  | cons a t ih =>
    cases t with
    | nil => simp [sof_scan]
    | cons b r =>
      by_cases hm : a = SOF_B0 ∧ b = SOF_B1
      · simp [sof_scan, hm]
      · have hlt := ih (by simp)
        simp only [sof_scan, hm, if_false, List.length_cons]
        simp only [sof_scan, List.length_cons] at hlt
        omega

theorem sof_scan_zero_sof (l : List ℕ) (hlen : 2 ≤ l.length) (h : sof_scan l = 0) :
    l.getD 0 0 = SOF_B0 ∧ l.getD 1 0 = SOF_B1 := by
  cases l with
  | nil => simp at hlen
  | cons a t =>
    cases t with
    | nil => simp at hlen
    | cons b r =>
      by_cases hm : a = SOF_B0 ∧ b = SOF_B1
      · exact ⟨by simp [hm.1], by simp [hm.2]⟩
      · simp [sof_scan, hm] at h

theorem try_parse_rxbuf (now : ℕ) (st : ProtoState) :
    (try_parse_one_frame now st).st.rxbuf = st.rxbuf := by
  unfold try_parse_one_frame
  dsimp only
  repeat' split
  all_goals first
    | rfl
    | exact dispatch_msg_rxbuf _ _ _ _ _ _ _ _

theorem try_parse_consumed_bounds (now : ℕ) (st : ProtoState)
    (h : (try_parse_one_frame now st).again = true) :
    1 ≤ (try_parse_one_frame now st).consumed ∧
    (try_parse_one_frame now st).consumed ≤ st.rxbuf.length := by
  have hscan : st.rxbuf = [] ∨ sof_scan st.rxbuf < st.rxbuf.length := by
    cases hbuf : st.rxbuf with
    | nil => exact Or.inl rfl
    | cons a t => exact Or.inr (hbuf ▸ sof_scan_lt (a :: t) (by simp))
  unfold try_parse_one_frame at h ⊢
  dsimp only at h ⊢
  split_ifs at h ⊢ <;>
    first
      | (dsimp only; constructor <;> omega)
      | (rw [dispatch_msg_consumed]; constructor <;> omega)
      | (dsimp only
         rcases hscan with hnil | hlt
         · simp_all
         · constructor <;> omega)

theorem try_parse_ev_none (now : ℕ) (st : ProtoState)
    (h : valid_frame_head st.rxbuf = false) :
    (try_parse_one_frame now st).ev = none := by
  unfold try_parse_one_frame
  dsimp only
  split_ifs with h1 h2 h3 h4 h5 h6 h7
  · rfl
  · rfl
  · rfl
  · rfl
  · rfl
  · rfl
  · rfl
  · exfalso
    have hsof := sof_scan_zero_sof st.rxbuf (by omega) (by omega)
    have hv : valid_frame_head st.rxbuf = true := by
      simp only [valid_frame_head, Bool.and_eq_true, decide_eq_true_eq, beq_iff_eq,
        and_assoc]
      exact ⟨by omega, hsof.1, hsof.2, by omega, by omega, by omega, by omega, by omega⟩
    rw [hv] at h
    simp at h

theorem no_valid_drop (l : List ℕ) (n : ℕ) (h : no_valid_frame l) :
    no_valid_frame (l.drop n) := by
  intro i
  rw [List.drop_drop]
  exact h (n + i)

theorem process_aux_no_valid (now : ℕ) :
    ∀ (fuel : ℕ) (st : ProtoState) (acc : List ProtoEvent),
      no_valid_frame st.rxbuf →
      (process_rx_buffer_aux now fuel st acc).1 = acc := by
  intro fuel
  induction fuel with
  | zero => intro st acc _; rfl
  | succ n ih =>
    intro st acc h
    by_cases ha : (try_parse_one_frame now st).again = true
    · rw [process_aux_step now n st acc ha]
      have hev : (try_parse_one_frame now st).ev = none := by
        refine try_parse_ev_none now st ?_
        have h0 := h 0
        rwa [List.drop_zero] at h0
      rw [hev]
      simp only [Option.toList_none, List.append_nil]
      refine ih _ _ ?_
      have hb : ({ (try_parse_one_frame now st).st with
          rxbuf := (try_parse_one_frame now st).st.rxbuf.drop
            (try_parse_one_frame now st).consumed } : ProtoState).rxbuf =
          st.rxbuf.drop (try_parse_one_frame now st).consumed := by
        simp [try_parse_rxbuf]
      rw [hb]
      exact no_valid_drop _ _ h
    · rw [process_aux_stop now n st acc (by simpa using ha)]

theorem process_aux_complete (now : ℕ) :
    ∀ (fuel : ℕ) (st : ProtoState) (acc : List ProtoEvent),
      st.rxbuf.length < fuel →
      (process_rx_buffer_aux now fuel st acc).2.2 = true := by
  intro fuel
  induction fuel with
  | zero => intro st acc h; omega
  | succ n ih =>
    intro st acc h
    by_cases ha : (try_parse_one_frame now st).again = true
    · rw [process_aux_step now n st acc ha]
      refine ih _ _ ?_
      have hcb := try_parse_consumed_bounds now st ha
      simp only [try_parse_rxbuf, List.length_drop]
      omega
    · rw [process_aux_stop now n st acc (by simpa using ha)]

theorem feed_len_le (st : ProtoState) (data : List ℕ)
    (h : st.rxbuf.length ≤ CFG_PROTO_RX_BUF_CAP) :
    (protocol_feed_bytes st data).rxbuf.length ≤ CFG_PROTO_RX_BUF_CAP := by
  unfold protocol_feed_bytes
  unfold CFG_PROTO_RX_BUF_CAP at h ⊢
  dsimp only
  split_ifs <;>
    (try dsimp only at *) <;>
    (try simp [List.length_append, List.length_drop]) <;>
    (try simp [List.length_append, List.length_drop] at *) <;>
    omega

theorem no_valid_frame_of_check (l : List ℕ)
    (h : ∀ i < l.length, valid_frame_head (l.drop i) = false) : no_valid_frame l := by
  intro i
  rcases lt_or_ge i l.length with hi | hi
  · exact h i hi
  · rw [List.drop_eq_nil_of_le hi]
    rfl

/-- Claim C8: for every buffer content of at most the 512-byte capacity that
contains no valid frame at any offset (in particular pure noise), a single
drain terminates within `length + 1` loop iterations (each continuing
iteration discards at least one byte) and yields zero dispatched frames;
and every ingest keeps the buffer within its fixed 512-byte capacity. -/
theorem C8_noise_bounded (now : ℕ) (st : ProtoState)
    (hlen : st.rxbuf.length ≤ CFG_PROTO_RX_BUF_CAP)
    (hnov : no_valid_frame st.rxbuf) :
    (process_rx_buffer now st).2.2 = true ∧
    (process_rx_buffer now st).1 = [] ∧
    ∀ data, (protocol_feed_bytes st data).rxbuf.length ≤ CFG_PROTO_RX_BUF_CAP :=
  ⟨process_aux_complete now (st.rxbuf.length + 1) st [] (by omega),
   process_aux_no_valid now (st.rxbuf.length + 1) st [] hnov,
   fun data => feed_len_le st data hlen⟩

/-- Witness for C8: 60 bytes (twice the maximum frame length) of `0x11`
noise. -/
theorem C8_noise_bounded_witness :
    ((List.replicate 60 0x11).length ≤ CFG_PROTO_RX_BUF_CAP ∧
      no_valid_frame (List.replicate 60 0x11)) ∧
    ((process_rx_buffer 5 ⟨List.replicate 60 0x11, 0, 0, 0, 0, 0, 300, 1⟩).2.2 = true ∧
     (process_rx_buffer 5 ⟨List.replicate 60 0x11, 0, 0, 0, 0, 0, 300, 1⟩).1 = [] ∧
     ∀ data, (protocol_feed_bytes ⟨List.replicate 60 0x11, 0, 0, 0, 0, 0, 300, 1⟩
        data).rxbuf.length ≤ CFG_PROTO_RX_BUF_CAP) :=
  have hn : no_valid_frame (List.replicate 60 0x11) :=
    no_valid_frame_of_check _ (by decide)
  ⟨⟨by decide, hn⟩,
   C8_noise_bounded 5 ⟨List.replicate 60 0x11, 0, 0, 0, 0, 0, 300, 1⟩ (by decide) hn⟩

/-! ## Claim C7 -/

/-- Claim C7: during frame processing, the liveness timestamp
`s_last_ok_rx_ms` is set to `now` exactly when a fully validated frame of
kind `MSG_PWM` or `MSG_HB` is dispatched; validated `MSG_HB_ACK` frames and
unrecognized kinds — as well as every rejection or wait path — leave it
unchanged. -/
theorem C7_liveness_update (now : ℕ) (st : ProtoState) :
    (try_parse_one_frame now st).st.lastOkRxMs =
      (match (try_parse_one_frame now st).valid with
       | some m => if m = MSG_PWM ∨ m = MSG_HB then now else st.lastOkRxMs
       | none => st.lastOkRxMs) := by
  unfold try_parse_one_frame
  dsimp only
  repeat' split
  all_goals first
    | rfl
    | simp_all [dispatch_msg_valid, dispatch_msg_lastOk]

/-! ## Claim C4 -/

theorem max_step_eff_of_pos (cfg : PwmCtrlConfig) (hms : 0 < cfg.max_step_pct) :
    max_step_pct_effective cfg = cfg.max_step_pct := by
  unfold max_step_pct_effective
  rw [if_neg (not_le.mpr hms)]

theorem clamp_pct_eq_self (cfg : PwmCtrlConfig) (x : ℚ)
    (h1 : min_pct_effective cfg ≤ x) (h2 : x ≤ max_pct_effective cfg) :
    clamp_pct cfg x = x := by
  simp only [clamp_pct]
  split_ifs <;> linarith

/-- The per-tick update of a channel inside this tick's active mask whose
target sits at the configured minimum while its current value is strictly
above `mid + ε`: reverse protection retargets the tick at `mid`, so the
value either descends by exactly `max_step` or lands exactly on `mid`. -/
theorem pwm_ctrl_next_desc (cfg : PwmCtrlConfig) (s : PwmCtrlState) (i : Fin 8)
    (hrev : cfg.enable_reverse_protection = true)
    (hin : ch_in_mask (i.val + 1) (active_mask_for_this_step cfg s.group_toggle).1 = true)
    (hmin : 0 < cfg.min_pct) (h12 : cfg.min_pct < cfg.mid_pct)
    (h23 : cfg.mid_pct < cfg.max_pct) (hms : 0 < cfg.max_step_pct)
    (heps1 : reverse_eps < cfg.mid_pct - cfg.min_pct)
    (htgt : s.target_pct i = cfg.min_pct)
    (hcur_hi : cfg.mid_pct + reverse_eps < s.current_pct i)
    (hcur_le : s.current_pct i ≤ cfg.max_pct) :
    pwm_ctrl_next cfg s i =
      if cfg.max_step_pct < s.current_pct i - cfg.mid_pct
      then s.current_pct i - cfg.max_step_pct else cfg.mid_pct := by
  have heps0 : (0 : ℚ) < reverse_eps := by norm_num [reverse_eps]
  have hmin_eff : min_pct_effective cfg = cfg.min_pct := by
    simp [min_pct_effective, hmin]
  have hmax_eff : max_pct_effective cfg = cfg.max_pct := by
    simp [max_pct_effective]
    intro h
    linarith
  unfold pwm_ctrl_next
  dsimp only
  rw [max_step_eff_of_pos cfg hms]
  rw [if_neg (not_not_intro hin)]
  rw [htgt]
  have hprot : cfg.enable_reverse_protection = true ∧
      ((s.current_pct i > cfg.mid_pct + reverse_eps ∧
          cfg.min_pct < cfg.mid_pct - reverse_eps) ∨
        (s.current_pct i < cfg.mid_pct - reverse_eps ∧
          cfg.min_pct > cfg.mid_pct + reverse_eps)) :=
    ⟨hrev, Or.inl ⟨hcur_hi, by linarith⟩⟩
  rw [if_pos hprot]
  have habs : |cfg.mid_pct - s.current_pct i| = s.current_pct i - cfg.mid_pct := by
    rw [abs_sub_comm]
    exact abs_of_pos (by linarith)
  rw [habs]
  split_ifs
  all_goals try linarith
  · have hx : s.current_pct i + -cfg.max_step_pct = s.current_pct i - cfg.max_step_pct := by
      ring
    rw [hx]
    exact clamp_pct_eq_self cfg _ (by rw [hmin_eff]; linarith) (by rw [hmax_eff]; linarith)
  · have hx : s.current_pct i + (cfg.mid_pct - s.current_pct i) = cfg.mid_pct := by
      ring
    rw [hx]
    exact clamp_pct_mid cfg hmin h12 h23

/-- Claim C4 counterexample: with reverse protection enabled, mode `ALL`,
`min = 5`, `mid = 7.5`, `max_step = 0.2` and `max = 7.7000005`
(= mid + max_step + 0.0000005), starting at `current = max`,
`target = min`: the first step lands at 7.5000005, inside the `1e-6`
epsilon band where the reverse-protection comparison no longer sees the
value as above `mid`, so the second step jumps to 7.3000005 — strictly
below `mid` although `current` never equalled `mid`. -/
theorem C4_eps_band_counterexample :
    let cfg : PwmCtrlConfig := ⟨50, 1/5, 5, 15/2, 15/2 + 1/5 + 1/2000000, true, 15, 240, 0⟩
    let st : PwmCtrlState := ⟨true, fun _ => 15/2 + 1/5 + 1/2000000, fun _ => 5, 0, 0⟩
    let e : (Fin 8 → ℚ) → Bool := fun _ => true
    let st1 := (pwm_ctrl_step cfg e st).2
    let st2 := (pwm_ctrl_step cfg e st1).2
    st.current_pct 0 ≠ 15/2 ∧ st1.current_pct 0 ≠ 15/2 ∧ st2.current_pct 0 < 15/2 := by
  simp only [pwm_ctrl_step, pwm_ctrl_next, active_mask_for_this_step, max_step_pct_effective,
    clamp_pct, min_pct_effective, max_pct_effective, ch_in_mask, reverse_eps,
    PWM_CTRL_GROUP_MODE_ALL, PWM_CH_MASK_ALL]
  norm_num [abs_of_pos, abs_of_neg, abs_of_nonneg, abs_of_nonpos]

/-- Claim C4 (amended): with reverse protection enabled, starting from
`current = max`, `target = min`, the step sequence — in any group mode,
since a tick on which the channel is outside the active mask leaves it
unchanged — brings the value exactly to `mid` before any step produces a
value below `mid`, provided the shaper's `1e-6` epsilon comparisons resolve
cleanly: `mid - min > 1e-6` and no iterate `max - k·max_step` falls inside
the half-open band `(mid, mid + 1e-6]` (equivalently each such iterate is
`≤ mid` or `> mid + 1e-6`).  The default 5/7.5/10, 0.2 configuration
satisfies these side conditions; without them the epsilon band defeats the
protection (`C4_eps_band_counterexample`). -/
theorem C4_reverse_through_mid (cfg : PwmCtrlConfig) (st0 : PwmCtrlState) (i : Fin 8)
    (hrev : cfg.enable_reverse_protection = true)
    (hmin : 0 < cfg.min_pct) (h12 : cfg.min_pct < cfg.mid_pct)
    (h23 : cfg.mid_pct < cfg.max_pct) (hms : 0 < cfg.max_step_pct)
    (heps1 : reverse_eps < cfg.mid_pct - cfg.min_pct)
    (heps2 : ∀ k : ℕ, cfg.max_pct - cfg.mid_pct - k * cfg.max_step_pct ≤ 0 ∨
        reverse_eps < cfg.max_pct - cfg.mid_pct - k * cfg.max_step_pct)
    (hinit : st0.inited = true)
    (hcur : st0.current_pct i = cfg.max_pct)
    (htgt : st0.target_pct i = cfg.min_pct) :
    ∀ n, (pwm_ctrl_steps cfg (fun _ => true) n st0).current_pct i < cfg.mid_pct →
      ∃ m < n, (pwm_ctrl_steps cfg (fun _ => true) m st0).current_pct i = cfg.mid_pct := by
  set e : (Fin 8 → ℚ) → Bool := fun _ => true with he
  have hstep : ∀ n : ℕ, pwm_ctrl_steps cfg e (n + 1) st0 =
      (pwm_ctrl_step cfg e (pwm_ctrl_steps cfg e n st0)).2 := by
    intro n
    simp [pwm_ctrl_steps, Function.iterate_succ_apply']
  have hpres : ∀ n, (pwm_ctrl_steps cfg e n st0).inited = true ∧
      (pwm_ctrl_steps cfg e n st0).target_pct i = cfg.min_pct := by
    intro n
    induction n with
    | zero => exact ⟨hinit, htgt⟩
    | succ m ih =>
      rw [hstep m]
      constructor
      · simp [pwm_ctrl_step, ih.1, he]
      · simp [pwm_ctrl_step, ih.1, he]
        exact ih.2
  have hcur_succ : ∀ n, (pwm_ctrl_steps cfg e (n + 1) st0).current_pct i =
      pwm_ctrl_next cfg (pwm_ctrl_steps cfg e n st0) i := by
    intro n
    rw [hstep n]
    simp [pwm_ctrl_step, (hpres n).1, he]
  have hinv : ∀ n, (∃ m ≤ n, (pwm_ctrl_steps cfg e m st0).current_pct i = cfg.mid_pct) ∨
      (∃ j : ℕ, (pwm_ctrl_steps cfg e n st0).current_pct i =
          cfg.max_pct - j * cfg.max_step_pct ∧
        reverse_eps < (pwm_ctrl_steps cfg e n st0).current_pct i - cfg.mid_pct) := by
    intro n
    induction n with
    | zero =>
      right
      refine ⟨0, ?_, ?_⟩
      · simp [pwm_ctrl_steps, hcur]
      · rcases heps2 0 with h | h
        · simp at h
          linarith
        · simp at h
          simp [pwm_ctrl_steps, hcur]
          linarith
    | succ m ih =>
      rcases ih with ⟨m', hm', heq⟩ | ⟨j, hval, heps⟩
      · exact Or.inl ⟨m', le_trans hm' (Nat.le_succ m), heq⟩
      · by_cases hmask : ch_in_mask (i.val + 1)
            (active_mask_for_this_step cfg
              (pwm_ctrl_steps cfg e m st0).group_toggle).1 = true
        · have hdesc := pwm_ctrl_next_desc cfg (pwm_ctrl_steps cfg e m st0) i hrev hmask
            hmin h12 h23 hms heps1 (hpres m).2 (by linarith)
            (by
              rw [hval]
              have : 0 ≤ (j : ℚ) * cfg.max_step_pct :=
                mul_nonneg (Nat.cast_nonneg j) hms.le
              linarith)
          by_cases hgt : cfg.max_step_pct <
              (pwm_ctrl_steps cfg e m st0).current_pct i - cfg.mid_pct
          · right
            refine ⟨j + 1, ?_, ?_⟩
            · rw [hcur_succ m, hdesc, if_pos hgt, hval]
              push_cast
              ring
            · rcases heps2 (j + 1) with h | h
              · exfalso
                push_cast at h
                rw [hval] at hgt
                linarith
              · push_cast at h
                rw [hcur_succ m, hdesc, if_pos hgt, hval]
                linarith
          · left
            refine ⟨m + 1, le_refl _, ?_⟩
            rw [hcur_succ m, hdesc, if_neg hgt]
        · have hskip : (pwm_ctrl_steps cfg e (m + 1) st0).current_pct i =
              (pwm_ctrl_steps cfg e m st0).current_pct i := by
            rw [hcur_succ m]
            exact pwm_ctrl_next_inactive cfg _ i (by simpa using hmask)
          right
          refine ⟨j, ?_, ?_⟩
          · rw [hskip]
            exact hval
          · rw [hskip]
            exact heps
  intro n hlt
  rcases hinv n with ⟨m, hm, heq⟩ | ⟨_, _, heps⟩
  · refine ⟨m, lt_of_le_of_ne hm ?_, heq⟩
    intro hmn
    rw [hmn] at heq
    linarith
  · have : (0 : ℚ) < reverse_eps := by norm_num [reverse_eps]
    linarith

/-- Witness for the amended C4 at the default 5/7.5/10 configuration with
`max_step = 0.2`. -/
theorem C4_reverse_through_mid_witness :
    ((0 : ℚ) < 5 ∧ (5 : ℚ) < 15/2 ∧ (15 : ℚ)/2 < 10 ∧ (0 : ℚ) < 1/5 ∧
      reverse_eps < (15 : ℚ)/2 - 5 ∧
      (∀ k : ℕ, (10 : ℚ) - 15/2 - k * (1/5) ≤ 0 ∨
        reverse_eps < (10 : ℚ) - 15/2 - k * (1/5))) ∧
    (∀ n, (pwm_ctrl_steps ⟨50, 1/5, 5, 15/2, 10, true, 15, 240, 0⟩ (fun _ => true) n
        ⟨true, fun _ => 10, fun _ => 5, 0, 0⟩).current_pct 0 < 15/2 →
      ∃ m < n, (pwm_ctrl_steps ⟨50, 1/5, 5, 15/2, 10, true, 15, 240, 0⟩ (fun _ => true) m
        ⟨true, fun _ => 10, fun _ => 5, 0, 0⟩).current_pct 0 = 15/2) :=
  have heps2 : ∀ k : ℕ, (10 : ℚ) - 15/2 - k * (1/5) ≤ 0 ∨
      reverse_eps < (10 : ℚ) - 15/2 - k * (1/5) := by
    intro k
    rcases le_or_lt (k : ℕ) 12 with h | h
    · right
      have hk : (k : ℚ) ≤ 12 := by exact_mod_cast h
      norm_num [reverse_eps]
      linarith
    · left
      have hk : (13 : ℚ) ≤ (k : ℚ) := by exact_mod_cast h
      linarith
  ⟨⟨by norm_num, by norm_num, by norm_num, by norm_num, by norm_num [reverse_eps], heps2⟩,
   C4_reverse_through_mid ⟨50, 1/5, 5, 15/2, 10, true, 15, 240, 0⟩
     ⟨true, fun _ => 10, fun _ => 5, 0, 0⟩ 0 rfl (by norm_num) (by norm_num)
     (by norm_num) (by norm_num) (by norm_num [reverse_eps]) heps2 rfl rfl rfl⟩

/-! ## Claim C10 -/

/-- Claim C10: for every channel and every negative requested target
percentage, the single-channel setter, the masked multi-channel setter and
the host-side percent send path all substitute the midpoint (7.5 %, wire
value 5000) for the negative input instead of clamping it to the configured
minimum. -/
theorem C10_negative_pct_to_mid (cfg : PwmCtrlConfig) (st : PwmCtrlState)
    (ch : ℕ) (pct : ℚ) (pcts : Fin 8 → ℚ) (mask : ℕ) (i j : Fin 8)
    (hin : st.inited = true) (hch1 : 1 ≤ ch) (hch2 : ch ≤ 8)
    (hneg : pct < 0) (hnegs : ∀ k, pcts k < 0)
    (h1 : 0 < cfg.min_pct) (h2 : cfg.min_pct < cfg.mid_pct) (h3 : cfg.mid_pct < cfg.max_pct)
    (hi : i.val = ch - 1) (hj : ch_in_mask (j.val + 1) mask = true) :
    (pwm_ctrl_set_target_pct cfg st ch pct).2.target_pct i = cfg.mid_pct ∧
    (pwm_ctrl_set_targets_mask cfg st mask pcts).2.target_pct j = cfg.mid_pct ∧
    pwm_host_set_all_pct pcts i = 5000 := by
  have hch : ¬(ch < 1 ∨ ch > 8) := by omega
  have hch' : ¬(ch = 0 ∨ 8 < ch) := by omega
  refine ⟨?_, ?_, ?_⟩
  · simp [pwm_ctrl_set_target_pct, hin, hch, hch', hi, hneg, clamp_pct_mid cfg h1 h2 h3]
  · simp [pwm_ctrl_set_targets_mask, hin, hj, hnegs j, clamp_pct_mid cfg h1 h2 h3]
  · simp [pwm_host_set_all_pct, pwm_host_set_all_u16, hnegs i, percent_to_u16_of_mid,
      PWM_HOST_VAL_MAX]

/-- Witness for C10: channel 3 requested at −1 %. -/
theorem C10_negative_pct_to_mid_witness :
    ((-1 : ℚ) < 0 ∧ (0:ℚ) < 5 ∧ (5:ℚ) < 15/2 ∧ (15:ℚ)/2 < 10) ∧
    ((pwm_ctrl_set_target_pct ⟨50, 1/5, 5, 15/2, 10, true, 15, 240, 1⟩
        ⟨true, fun _ => 15/2, fun _ => 15/2, 0, 0⟩ 3 (-1)).2.target_pct 2 = 15/2 ∧
     (pwm_ctrl_set_targets_mask ⟨50, 1/5, 5, 15/2, 10, true, 15, 240, 1⟩
        ⟨true, fun _ => 15/2, fun _ => 15/2, 0, 0⟩ 255 (fun _ => -1)).2.target_pct 2 = 15/2 ∧
     pwm_host_set_all_pct (fun _ => -1) 2 = 5000) :=
  ⟨⟨by norm_num, by norm_num, by norm_num, by norm_num⟩,
   C10_negative_pct_to_mid ⟨50, 1/5, 5, 15/2, 10, true, 15, 240, 1⟩
     ⟨true, fun _ => 15/2, fun _ => 15/2, 0, 0⟩ 3 (-1) (fun _ => -1) 255 2 2
     rfl (by norm_num) (by norm_num) (by norm_num) (fun _ => by norm_num)
     (by norm_num) (by norm_num) (by norm_num) rfl (by decide)⟩

end OrangePiRov
